import Mathlib

/-!
Shallow embedding of the sales-report pipeline of `src/main.py`
(`parse_number`, the row-parsing loop of `fetch_data`, `filter_data`,
`compute_report`, `format_report`), together with theorems settling the
spec claims about it.

Python floats are modelled as exact rationals (`ℚ`); the spec explicitly
tolerates floating-point summation-order effects, and every claim here is
about the exact-arithmetic content of the code.
-/

namespace AnalyticsBot

/-- A raw spreadsheet cell value as it can reach `parse_number`:
a Python `int`, `float`, `str`, or any other object. -/
inductive PyValue where
  | int (n : ℤ)
  | float (x : ℚ)
  | str (s : String)
  | other
deriving DecidableEq, Repr

/-- Characters stripped by Python `str.strip()` (no argument): ASCII
whitespace and the non-breaking space, the cases relevant to this data. -/
def isPySpace (c : Char) : Bool :=
  c = ' ' || c = '\t' || c = '\n' || c = '\r' || c = '\x0b' || c = '\x0c' || c = ' '

/-- Python `v.replace(' ', '')`: every non-breaking space removed. -/
def removeNbsp (l : List Char) : List Char :=
  l.filter (fun c => !(c = ' '))

/-- Leading-whitespace part of `str.strip()`. -/
def lstripP (l : List Char) : List Char :=
  l.dropWhile isPySpace

/-- Trailing-whitespace part of `str.strip()`. -/
def rstripP (l : List Char) : List Char :=
  (l.reverse.dropWhile isPySpace).reverse

/-- Python `str.strip()`. -/
def stripP (l : List Char) : List Char :=
  rstripP (lstripP l)

/-- Python `s.rstrip('%')`: every trailing `'%'` removed. -/
def rstripPercent (l : List Char) : List Char :=
  (l.reverse.dropWhile (fun c => c = '%')).reverse

/-- Python `s.replace(',', '.')`: every comma becomes a dot. -/
def commaToDot (l : List Char) : List Char :=
  l.map (fun c => if c = ',' then '.' else c)

/-- Python `s.endswith('%')`. -/
def endsWithPercent (l : List Char) : Bool :=
  l.reverse.head? = some '%'

/-- Consume a maximal run of ASCII digits, accumulating their value and
count, and return the value, the count, and the rest of the input. -/
def takeDigits : ℕ → ℕ → List Char → ℕ × ℕ × List Char
  | acc, n, [] => (acc, n, [])
  | acc, n, c :: cs =>
    if c.isDigit then takeDigits (10 * acc + (c.toNat - 48)) (n + 1) cs
    else (acc, n, c :: cs)

/-- Optional leading sign of a numeric literal. -/
def parseSign : List Char → ℤ × List Char
  | [] => (1, [])
  | c :: cs =>
    if c = '+' then (1, cs)
    else if c = '-' then (-1, cs)
    else (1, c :: cs)

/-- Optional exponent part of a float literal: empty, or
`e`/`E`, an optional sign, and at least one digit ending the input. -/
def parseExp : List Char → Option ℤ
  | [] => some 0
  | c :: cs =>
    if c = 'e' || c = 'E' then
      let sg := (parseSign cs).1
      let t := takeDigits 0 0 (parseSign cs).2
      if 0 < t.2.1 && t.2.2.isEmpty then some (sg * t.1) else none
    else none

/-- Models CPython `float(s)` on decimal and scientific literals: optional
sign, digits with at most one dot (at least one digit overall), optional
exponent.  (`inf`/`nan` and digit-group underscores do not arise in this
pipeline and are not modelled; the value is the exact rational.) -/
def pyFloat? (l : List Char) : Option ℚ :=
  let l1 := (parseSign l).2
  let sg := (parseSign l).1
  let t1 := takeDigits 0 0 l1
  match t1.2.2 with
  | '.' :: l3 =>
    let t2 := takeDigits 0 0 l3
    if t1.2.1 + t2.2.1 = 0 then none
    else
      match parseExp t2.2.2 with
      | some e => some ((sg : ℚ) * ((t1.1 : ℚ) + (t2.1 : ℚ) / 10 ^ t2.2.1) * 10 ^ e)
      | none => none
  | rest =>
    if t1.2.1 = 0 then none
    else
      match parseExp rest with
      | some e => some ((sg : ℚ) * (t1.1 : ℚ) * 10 ^ e)
      | none => none

/-- The string pipeline of `parse_number` up to the final `float(s)` call:
remove non-breaking spaces, strip, drop a trailing percent sign (stripping
again), and replace commas with dots. -/
def pyNormalize (s : String) : List Char :=
  let s0 := stripP (removeNbsp s.data)
  let s1 := if endsWithPercent s0 then stripP (rstripPercent s0) else s0
  commaToDot s1

/-- The function `parse_number` of `src/main.py`: `int`/`float` are converted to float;
a string goes through the normalization pipeline and a failed `float(s)`
parse yields `0.0`; any other value yields `0.0`. -/
def parse_number (v : PyValue) : ℚ :=
  match v with
  | .int n => (n : ℚ)
  | .float x => x
  | .str s =>
    match pyFloat? (pyNormalize s) with
    | some q => q
    | none => 0
  | .other => 0

/-- A Python `datetime.date`: calendar year, month, day. -/
structure Date where
  year : ℕ
  month : ℕ
  day : ℕ
deriving DecidableEq, Repr

/-- Python `date` comparison is lexicographic on (year, month, day). -/
instance : LE Date :=
  ⟨fun a b => a.year < b.year ∨ (a.year = b.year ∧
    (a.month < b.month ∨ (a.month = b.month ∧ a.day ≤ b.day)))⟩

instance (a b : Date) : Decidable (a ≤ b) :=
  inferInstanceAs (Decidable (a.year < b.year ∨ (a.year = b.year ∧
    (a.month < b.month ∨ (a.month = b.month ∧ a.day ≤ b.day)))))

/-- Gregorian leap-year rule used by `datetime`. -/
def isLeapYear (y : ℕ) : Bool :=
  (y % 4 = 0 && y % 100 != 0) || y % 400 = 0

/-- Days in a month, as validated by `datetime.date`. -/
def daysInMonth (y m : ℕ) : ℕ :=
  if m = 2 then (if isLeapYear y then 29 else 28)
  else if m = 4 || m = 6 || m = 9 || m = 11 then 30
  else 31

/-- Models `datetime.strptime(s, "%d.%m.%Y").date()`: one- or two-digit
day and month separated by literal dots from an exactly-four-digit year
ending the string; day/month/year validated as a real calendar date
(`datetime` requires `year >= 1` and `day <= daysInMonth`). -/
def strptime_dmY (s : String) : Option Date :=
  let t1 := takeDigits 0 0 s.data
  match t1.2.2 with
  | '.' :: r1 =>
    let t2 := takeDigits 0 0 r1
    match t2.2.2 with
    | '.' :: r2 =>
      let t3 := takeDigits 0 0 r2
      if (t1.2.1 = 1 || t1.2.1 = 2) && (1 ≤ t1.1 && t1.1 ≤ 31) &&
         (t2.2.1 = 1 || t2.2.1 = 2) && (1 ≤ t2.1 && t2.1 ≤ 12) &&
         t3.2.1 = 4 && 1 ≤ t3.1 && t3.2.2.isEmpty &&
         t1.1 ≤ daysInMonth t3.1 t2.1
      then some ⟨t3.1, t2.1, t1.1⟩ else none
    | _ => none
  | _ => none

/-- One parsed row of the sheet (the dict built in `fetch_data`). -/
structure SalesRecord where
  date : Date
  batons : ℚ
  sales : ℚ
  type : PyValue
  expense : ℚ
  margin : ℚ
deriving DecidableEq, Repr

/-- The per-row body of the loop in `fetch_data`: rows with fewer than 6
cells are skipped (`len(row) < 6`), `row[0]` must be a string parsing
under `strptime("%d.%m.%Y")` (any failure, including a non-string cell,
is caught and skips the row), cells 1, 2, 4, 5 go through `parse_number`
and cell 3 is taken verbatim. -/
def parse_row (row : List PyValue) : Option SalesRecord :=
  match row with
  | PyValue.str ds :: c1 :: c2 :: c3 :: c4 :: c5 :: _ =>
    match strptime_dmY ds with
    | some d =>
      some { date := d, batons := parse_number c1, sales := parse_number c2,
             type := c3, expense := parse_number c4, margin := parse_number c5 }
    | none => none
  | _ => none

/-- The pure part of `fetch_data`: drop the header row (`values[1:]`) and
collect the rows that parse. -/
def fetch_data (values : List (List PyValue)) : List SalesRecord :=
  (values.drop 1).filterMap parse_row

/-- The function `filter_data` of `src/main.py`: the list comprehension keeping records
with `(start_date is None or date >= start_date) and
(end_date is None or date <= end_date)`. -/
def filter_data (data : List SalesRecord) (start_date end_date : Option Date) :
    List SalesRecord :=
  data.filter (fun item =>
    (match start_date with
     | none => true
     | some s => decide (s ≤ item.date)) &&
    (match end_date with
     | none => true
     | some e => decide (item.date ≤ e)))

/-- The report of `compute_report` of `src/main.py`. -/
structure ReportSummary where
  total_batons : ℚ
  total_sales : ℚ
  total_online : ℚ
  total_fop : ℚ
  expense : ℚ
  avg_margin : ℚ
  avg_online : ℚ
  avg_fop : ℚ
deriving DecidableEq, Repr

/-- The function `compute_report` of `src/main.py`: totals are sums over the rows
(channel totals restricted by exact equality of `type` with the literal
labels), averages are `sum(margins)/len(margins) if margins else 0.0`. -/
def compute_report (rows : List SalesRecord) : ReportSummary :=
  let margins := rows.map (fun r => r.margin)
  let margins_online := (rows.filter (fun r => r.type = PyValue.str "Онлайн")).map (fun r => r.margin)
  let margins_fop := (rows.filter (fun r => r.type = PyValue.str "ФОП")).map (fun r => r.margin)
  { total_batons := (rows.map (fun r => r.batons)).sum
    total_sales := (rows.map (fun r => r.sales)).sum
    total_online := ((rows.filter (fun r => r.type = PyValue.str "Онлайн")).map (fun r => r.sales)).sum
    total_fop := ((rows.filter (fun r => r.type = PyValue.str "ФОП")).map (fun r => r.sales)).sum
    expense := (rows.map (fun r => r.expense)).sum
    avg_margin := if margins.isEmpty then 0 else margins.sum / (margins.length : ℚ)
    avg_online := if margins_online.isEmpty then 0 else margins_online.sum / (margins_online.length : ℚ)
    avg_fop := if margins_fop.isEmpty then 0 else margins_fop.sum / (margins_fop.length : ℚ) }

/-- The decimal digit character for `n % 10`. -/
def digitChar (n : ℕ) : Char :=
  Char.ofNat (48 + n % 10)

/-- Zero-padded `k`-digit decimal rendering of `m`, most significant first. -/
def padDigits : ℕ → ℕ → List Char
  | 0, _ => []
  | k + 1, m => padDigits k (m / 10) ++ [digitChar m]

/-- Round to the nearest integer, ties to even — the rounding of CPython
float formatting, idealized to exact rationals. -/
def pyRoundHalfEven (q : ℚ) : ℤ :=
  let f := ⌊q⌋
  if q - f < 1 / 2 then f
  else if 1 / 2 < q - f then f + 1
  else if f % 2 = 0 then f else f + 1

/-- Models the f-string conversion `{x:.2f}`: sign, integer part, a dot
and exactly two decimal digits. -/
def pyFixed2 (q : ℚ) : String :=
  let n := pyRoundHalfEven (q * 100)
  let m := n.natAbs
  (if n < 0 then "-" else "") ++ toString (m / 100) ++ "." ++
    String.mk [digitChar (m / 10), digitChar m]

/-- The number of fractional decimal digits of `q`, up to 40.
Helper for the default float-to-text conversion model. -/
def fracLen (q : ℚ) : ℕ :=
  ((List.range 41).find? (fun k => (q * 10 ^ k).den = 1)).getD 40

/-- Models the default Python float-to-text conversion `str(x)` (as used
by an f-string replacement field with no format spec), on the
exact-rational idealization of floats: sign, integer part, a dot and the
fractional digits, `".0"` when the value is integral.  (Exponent notation
for extreme magnitudes is not modelled.) -/
def pyStr (q : ℚ) : String :=
  let a := |q|
  let k := fracLen a
  let n := (a * 10 ^ k).num.toNat
  (if q < 0 then "-" else "") ++ toString (n / 10 ^ k) ++ "." ++
    (if k = 0 then "0" else String.mk (padDigits k (n % 10 ^ k)))

/-- Models `d.strftime('%d.%m.%Y')`: zero-padded two-digit day and month,
dots, and the year. -/
def strftime_dmY (d : Date) : String :=
  String.mk [digitChar (d.day / 10), digitChar d.day] ++ "." ++
    String.mk [digitChar (d.month / 10), digitChar d.month] ++ "." ++
    toString d.year

/-- The function `format_report` of `src/main.py`: the header f-string followed by the
body f-string, margin fields through `{...:.2f}` plus a percent sign,
every other numeric field through the default conversion. -/
def format_report (start_date end_date : Date) (stats : ReportSummary) : String :=
  let header := "📊 Звіт Чіназес за " ++ strftime_dmY start_date ++ "–" ++
    strftime_dmY end_date ++ "\n\n"
  let body :=
    "🔹 Батонів продано: " ++ pyStr stats.total_batons ++ "\n" ++
    "🔹 Сума продажів: " ++ pyStr stats.total_sales ++ "\n\n" ++
    "💳 ФОП-онлайн: " ++ pyStr stats.total_online ++ "\n" ++
    "🤝 ФОП-ФОП: " ++ pyStr stats.total_fop ++ "\n\n" ++
    "💸 Витрати: " ++ pyStr stats.expense ++ "\n\n" ++
    "📈 Середня маржа: " ++ pyFixed2 stats.avg_margin ++ "%\n" ++
    "- Онлайн: " ++ pyFixed2 stats.avg_online ++ "%\n" ++
    "- ФОП: " ++ pyFixed2 stats.avg_fop ++ "%\n"
  header ++ body

/-! ### Helper lemmas -/

theorem charToNat_0 : Char.toNat '0' = 48 := rfl

theorem charToNat_1 : Char.toNat '1' = 49 := rfl

theorem charToNat_2 : Char.toNat '2' = 50 := rfl

theorem charToNat_3 : Char.toNat '3' = 51 := rfl

theorem charToNat_4 : Char.toNat '4' = 52 := rfl

theorem charToNat_5 : Char.toNat '5' = 53 := rfl

theorem charToNat_6 : Char.toNat '6' = 54 := rfl

theorem charToNat_7 : Char.toNat '7' = 55 := rfl

theorem charToNat_8 : Char.toNat '8' = 56 := rfl

theorem charToNat_9 : Char.toNat '9' = 57 := rfl

/-! ### C4: `parse_number` is total, numeric passthrough, `0.0` fallback -/

/-- C4. `parse_number` is total (it is a Lean function into `ℚ`, so no
exception can escape): numeric input is returned converted, a
non-numeric non-string value yields `0.0`, and a string whose normalized
form fails the numeric parse yields `0.0`. -/
theorem c4_parse_number_total_fallback :
    (∀ n : ℤ, parse_number (PyValue.int n) = (n : ℚ)) ∧
    (∀ x : ℚ, parse_number (PyValue.float x) = x) ∧
    parse_number PyValue.other = 0 ∧
    (∀ s : String, pyFloat? (pyNormalize s) = none → parse_number (PyValue.str s) = 0) :=
  ⟨fun _ => rfl, fun _ => rfl, rfl, fun s h => by simp [parse_number, h]⟩

/-- Witness for C4 at the concrete non-numeric string `"abc"`. -/
theorem c4_witness :
    pyFloat? (pyNormalize "abc") = none ∧ parse_number (PyValue.str "abc") = 0 :=
  ⟨by decide, c4_parse_number_total_fallback.2.2.2 "abc" (by decide)⟩

/-! ### Lemmas about the string-normalization pipeline -/

theorem dropWhile_idem (p : Char → Bool) (l : List Char) :
    (l.dropWhile p).dropWhile p = l.dropWhile p := by
  induction l with
  | nil => rfl
  | cons c cs ih =>
    by_cases h : p c
    · simp [List.dropWhile_cons, h, ih]
    · simp [List.dropWhile_cons, h]

theorem dropWhile_eq_self (p : Char → Bool) (l : List Char)
    (h : ∀ c ∈ l, p c = false) : l.dropWhile p = l := by
  cases l with
  | nil => rfl
  | cons c cs => simp [List.dropWhile_cons, h c (List.mem_cons_self c cs)]

theorem lstripP_append_nonspace (l r : List Char) (c : Char) (h : isPySpace c = false) :
    lstripP (l ++ c :: r) = lstripP l ++ c :: r := by
  unfold lstripP
  rw [List.dropWhile_append]
  by_cases he : (l.dropWhile isPySpace).isEmpty = true
  · rw [if_pos he, List.isEmpty_iff.mp he, List.dropWhile_cons, h]
    simp
  · rw [if_neg he]

theorem rstripP_append_nonspace (l : List Char) (c : Char) (h : isPySpace c = false) :
    rstripP (l ++ [c]) = l ++ [c] := by
  simp [rstripP, List.reverse_append, List.dropWhile_cons, h]

theorem rstripP_append_space (l : List Char) (c : Char) (h : isPySpace c = true) :
    rstripP (l ++ [c]) = rstripP l := by
  simp [rstripP, List.reverse_append, List.dropWhile_cons, h]

theorem rstripPercent_append (l : List Char) :
    rstripPercent (l ++ ['%']) = rstripPercent l := by
  simp [rstripPercent, List.reverse_append, List.dropWhile_cons]

theorem rstripPercent_eq_self (l : List Char) (h : '%' ∉ l) : rstripPercent l = l := by
  unfold rstripPercent
  rw [dropWhile_eq_self]
  · exact l.reverse_reverse
  · intro c hc
    simp only [decide_eq_false_iff_not]
    rintro rfl
    exact h (List.mem_reverse.mp hc)

theorem mem_of_mem_lstripP {c : Char} {l : List Char} (h : c ∈ lstripP l) : c ∈ l :=
  List.Sublist.mem h (List.dropWhile_sublist isPySpace)

theorem mem_of_mem_rstripP {c : Char} {l : List Char} (h : c ∈ rstripP l) : c ∈ l := by
  unfold rstripP at h
  exact List.mem_reverse.mp
    (List.Sublist.mem (List.mem_reverse.mp h) (List.dropWhile_sublist isPySpace))

theorem mem_of_mem_stripP {c : Char} {l : List Char} (h : c ∈ stripP l) : c ∈ l :=
  mem_of_mem_lstripP (mem_of_mem_rstripP h)

theorem mem_of_mem_removeNbsp {c : Char} {l : List Char} (h : c ∈ removeNbsp l) : c ∈ l :=
  List.Sublist.mem h (List.filter_sublist l)

theorem lstripP_idem (l : List Char) : lstripP (lstripP l) = lstripP l :=
  dropWhile_idem _ _

theorem stripP_lstripP (l : List Char) : stripP (lstripP l) = stripP l := by
  unfold stripP
  rw [lstripP_idem]

theorem endsWithPercent_append (l : List Char) : endsWithPercent (l ++ ['%']) = true := by
  simp [endsWithPercent, List.reverse_append]

theorem endsWithPercent_mem {l : List Char} (h : endsWithPercent l = true) : '%' ∈ l := by
  unfold endsWithPercent at h
  cases hr : l.reverse with
  | nil => rw [hr] at h; simp at h
  | cons c cs =>
    rw [hr] at h
    simp at h
    subst h
    exact List.mem_reverse.mp (hr ▸ List.mem_cons_self '%' cs)

theorem removeNbsp_append (l r : List Char) :
    removeNbsp (l ++ r) = removeNbsp l ++ removeNbsp r := by
  simp [removeNbsp, List.filter_append]

/-- Appending a percent sign to a percent-free string changes only the
percent-stripping step of the pipeline: the normalized forms coincide. -/
theorem pyNormalize_percent_append (b : String) (h : '%' ∉ b.data) :
    pyNormalize (b ++ "%") = pyNormalize b := by
  have hb : (b ++ "%").data = b.data ++ ['%'] := by
    rw [String.data_append]
  have hnp : isPySpace '%' = false := by decide
  have h1 : removeNbsp (b.data ++ ['%']) = removeNbsp b.data ++ ['%'] := by
    rw [removeNbsp_append]; rfl
  have hmem : '%' ∉ removeNbsp b.data := fun hc => h (mem_of_mem_removeNbsp hc)
  have hmem2 : '%' ∉ lstripP (removeNbsp b.data) := fun hc => hmem (mem_of_mem_lstripP hc)
  have h2 : stripP (removeNbsp b.data ++ ['%']) = lstripP (removeNbsp b.data) ++ ['%'] := by
    unfold stripP
    rw [show removeNbsp b.data ++ ['%'] = removeNbsp b.data ++ '%' :: [] from rfl,
      lstripP_append_nonspace _ _ _ hnp]
    exact rstripP_append_nonspace _ _ hnp
  have h3 : endsWithPercent (stripP (removeNbsp b.data)) = false := by
    cases hq : endsWithPercent (stripP (removeNbsp b.data)) with
    | false => rfl
    | true => exact absurd (mem_of_mem_removeNbsp (mem_of_mem_stripP (endsWithPercent_mem hq))) h
  simp only [pyNormalize]
  rw [hb, h1, h2, endsWithPercent_append, if_pos rfl, rstripPercent_append,
    rstripPercent_eq_self _ hmem2, stripP_lstripP, h3]
  simp

/-! ### C3: percent-suffixed strings are returned unscaled -/

/-- C3. Removing a trailing percent sign never rescales: for any
percent-free string `b`, the value of `b ++ "%"` equals the value of `b`
itself; in particular `"10%"` parses to `10` and `"12,5%"` to `12.5`
(`25/2`), never the fractions `0.10`/`0.125`. -/
theorem c3_percent_unscaled :
    (∀ b : String, '%' ∉ b.data →
      parse_number (PyValue.str (b ++ "%")) = parse_number (PyValue.str b)) ∧
    parse_number (PyValue.str "10%") = 10 ∧
    parse_number (PyValue.str "12,5%") = 25 / 2 := by
  refine ⟨fun b h => ?_, ?_, ?_⟩
  · simp [parse_number, pyNormalize_percent_append b h]
  · norm_num +decide [parse_number, pyNormalize, pyFloat?, parseSign, takeDigits, parseExp,
      stripP, lstripP, rstripP, removeNbsp, rstripPercent, commaToDot, endsWithPercent,
      isPySpace, charToNat_0, charToNat_1, charToNat_2, charToNat_5]
  · norm_num +decide [parse_number, pyNormalize, pyFloat?, parseSign, takeDigits, parseExp,
      stripP, lstripP, rstripP, removeNbsp, rstripPercent, commaToDot, endsWithPercent,
      isPySpace, charToNat_0, charToNat_1, charToNat_2, charToNat_5]

/-- Witness for C3 at the concrete percent-free string `"10"`. -/
theorem c3_witness :
    '%' ∉ ("10" : String).data ∧
    parse_number (PyValue.str ("10" ++ "%")) = parse_number (PyValue.str "10") :=
  ⟨by decide, c3_percent_unscaled.1 "10" (by decide)⟩

/-! ### Commutation of comma replacement with the rest of the pipeline -/

theorem filter_commaToDot (p : Char → Bool)
    (hp : ∀ c, p (if c = ',' then '.' else c) = p c) (l : List Char) :
    (commaToDot l).filter p = commaToDot (l.filter p) := by
  induction l with
  | nil => rfl
  | cons c cs ih =>
    simp only [commaToDot, List.map_cons, List.filter_cons, hp c] at ih ⊢
    by_cases h : p c = true
    · rw [if_pos h, if_pos h, List.map_cons, ih]
    · rw [if_neg h, if_neg h, ih]

theorem dropWhile_commaToDot (p : Char → Bool)
    (hp : ∀ c, p (if c = ',' then '.' else c) = p c) (l : List Char) :
    (commaToDot l).dropWhile p = commaToDot (l.dropWhile p) := by
  induction l with
  | nil => rfl
  | cons c cs ih =>
    simp only [commaToDot, List.map_cons, List.dropWhile_cons, hp c]
    by_cases h : p c
    · simp only [h, if_pos rfl]
      exact ih
    · simp only [h]
      rfl

theorem reverse_commaToDot (l : List Char) :
    (commaToDot l).reverse = commaToDot l.reverse := by
  simp [commaToDot, List.map_reverse]

theorem hp_nbsp :
    ∀ c : Char, (!((if c = ',' then '.' else c) = ' ' : Bool)) = (!(c = ' ' : Bool)) := by
  intro c
  by_cases h : c = ','
  · simp [h]
  · simp [h]

theorem hp_space : ∀ c : Char, isPySpace (if c = ',' then '.' else c) = isPySpace c := by
  intro c
  by_cases h : c = ','
  · simp [h, isPySpace]
  · simp [h]

theorem hp_percent :
    ∀ c : Char, (decide ((if c = ',' then '.' else c) = '%')) = (decide (c = '%')) := by
  intro c
  by_cases h : c = ','
  · simp [h]
  · simp [h]

theorem removeNbsp_commaToDot (l : List Char) :
    removeNbsp (commaToDot l) = commaToDot (removeNbsp l) := by
  unfold removeNbsp
  exact filter_commaToDot _ hp_nbsp l

theorem lstripP_commaToDot (l : List Char) :
    lstripP (commaToDot l) = commaToDot (lstripP l) := by
  unfold lstripP
  exact dropWhile_commaToDot _ hp_space l

theorem rstripP_commaToDot (l : List Char) :
    rstripP (commaToDot l) = commaToDot (rstripP l) := by
  unfold rstripP
  rw [reverse_commaToDot, dropWhile_commaToDot _ hp_space, reverse_commaToDot]

theorem stripP_commaToDot (l : List Char) :
    stripP (commaToDot l) = commaToDot (stripP l) := by
  unfold stripP
  rw [lstripP_commaToDot, rstripP_commaToDot]

theorem rstripPercent_commaToDot (l : List Char) :
    rstripPercent (commaToDot l) = commaToDot (rstripPercent l) := by
  unfold rstripPercent
  rw [reverse_commaToDot, dropWhile_commaToDot _ hp_percent, reverse_commaToDot]

theorem endsWithPercent_commaToDot (l : List Char) :
    endsWithPercent (commaToDot l) = endsWithPercent l := by
  unfold endsWithPercent
  rw [reverse_commaToDot]
  cases hr : l.reverse with
  | nil => rfl
  | cons c cs =>
    simp only [commaToDot, List.map_cons, List.head?_cons]
    by_cases h : c = ','
    · simp [h]
    · simp [h]

theorem commaToDot_idem (l : List Char) : commaToDot (commaToDot l) = commaToDot l := by
  induction l with
  | nil => rfl
  | cons c cs ih =>
    simp only [commaToDot, List.map_cons] at ih ⊢
    by_cases h : c = ','
    · simp [h, ih]
    · simp [h, ih]

theorem removeNbsp_idem (l : List Char) : removeNbsp (removeNbsp l) = removeNbsp l := by
  unfold removeNbsp
  rw [List.filter_filter]
  simp [Bool.and_self]

theorem stripP_space_pad (l : List Char) : stripP (' ' :: (l ++ [' '])) = stripP l := by
  unfold stripP
  have h1 : lstripP (' ' :: (l ++ [' '])) = lstripP (l ++ [' ']) := by
    simp [lstripP, List.dropWhile_cons, isPySpace]
  rw [h1]
  unfold lstripP
  rw [List.dropWhile_append]
  by_cases he : (l.dropWhile isPySpace).isEmpty = true
  · rw [if_pos he, List.isEmpty_iff.mp he]
    simp [List.dropWhile_cons, isPySpace, rstripP]
  · rw [if_neg he]
    exact rstripP_append_space _ _ (by decide)

theorem pyNormalize_commaToDot (s : String) :
    pyNormalize (String.mk (commaToDot s.data)) = pyNormalize s := by
  simp only [pyNormalize]
  rw [removeNbsp_commaToDot, stripP_commaToDot, endsWithPercent_commaToDot]
  by_cases hE : endsWithPercent (stripP (removeNbsp s.data)) = true
  · rw [if_pos hE, if_pos hE, rstripPercent_commaToDot, stripP_commaToDot, commaToDot_idem]
  · rw [if_neg hE, if_neg hE, commaToDot_idem]

theorem pyNormalize_removeNbsp (s : String) :
    pyNormalize (String.mk (removeNbsp s.data)) = pyNormalize s := by
  simp only [pyNormalize]
  rw [removeNbsp_idem]

theorem pyNormalize_nbsp_pad (s : String) :
    pyNormalize (String.mk (' ' :: (s.data ++ [' ']))) = pyNormalize s := by
  simp only [pyNormalize]
  have h : removeNbsp (' ' :: (s.data ++ [' '])) = removeNbsp s.data := by
    simp [removeNbsp, List.filter_append, List.filter_cons]
  rw [h]

theorem pyNormalize_space_pad (s : String) :
    pyNormalize (String.mk (' ' :: (s.data ++ [' ']))) = pyNormalize s := by
  simp only [pyNormalize]
  have h : removeNbsp (' ' :: (s.data ++ [' '])) = ' ' :: (removeNbsp s.data ++ [' ']) := by
    simp [removeNbsp, List.filter_append, List.filter_cons]
  rw [h, stripP_space_pad]

/-! ### C6: whitespace stripping and comma-to-dot equivalence -/

/-- C6. The pipeline strips non-breaking and ordinary whitespace before
the numeric parse (removing every non-breaking space and any surrounding
ordinary spaces leaves the value unchanged), and replacing every comma by
a dot leaves the value unchanged — so a comma-decimal string with
non-breaking-space padding parses like its dot-separated equivalent, as
the concrete instance `" 12,5 "` (non-breaking padding) versus `"12.5"`
shows. -/
theorem c6_normalize_whitespace_comma :
    (∀ s : String,
      parse_number (PyValue.str (String.mk (removeNbsp s.data))) = parse_number (PyValue.str s)) ∧
    (∀ s : String,
      parse_number (PyValue.str (String.mk (' ' :: (s.data ++ [' '])))) = parse_number (PyValue.str s)) ∧
    (∀ s : String,
      parse_number (PyValue.str (String.mk (' ' :: (s.data ++ [' '])))) = parse_number (PyValue.str s)) ∧
    (∀ s : String,
      parse_number (PyValue.str (String.mk (commaToDot s.data))) = parse_number (PyValue.str s)) ∧
    parse_number (PyValue.str " 12,5 ") = parse_number (PyValue.str "12.5") := by
  refine ⟨fun s => ?_, fun s => ?_, fun s => ?_, fun s => ?_, ?_⟩
  · simp [parse_number, pyNormalize_removeNbsp]
  · simp [parse_number, pyNormalize_nbsp_pad]
  · simp [parse_number, pyNormalize_space_pad]
  · simp [parse_number, pyNormalize_commaToDot]
  · have h1 : parse_number (PyValue.str " 12,5 ") = 25 / 2 := by
      norm_num +decide [parse_number, pyNormalize, pyFloat?, parseSign, takeDigits, parseExp,
        stripP, lstripP, rstripP, removeNbsp, rstripPercent, commaToDot, endsWithPercent,
        isPySpace, charToNat_1, charToNat_2, charToNat_5]
    have h2 : parse_number (PyValue.str "12.5") = 25 / 2 := by
      norm_num +decide [parse_number, pyNormalize, pyFloat?, parseSign, takeDigits, parseExp,
        stripP, lstripP, rstripP, removeNbsp, rstripPercent, commaToDot, endsWithPercent,
        isPySpace, charToNat_1, charToNat_2, charToNat_5]
    rw [h1, h2]

/-! ### Counting commas and dots through the pipeline -/

theorem count_dropWhile (p : Char → Bool) (a : Char) (l : List Char)
    (h : p a = false) : (l.dropWhile p).count a = l.count a := by
  have hsplit : l.count a = (l.takeWhile p).count a + (l.dropWhile p).count a := by
    conv_lhs => rw [← List.takeWhile_append_dropWhile p l]
    rw [List.count_append]
  have htake : (l.takeWhile p).count a = 0 := by
    rw [List.count_eq_zero]
    intro hmem
    have hta := List.mem_takeWhile_imp hmem
    rw [h] at hta
    exact Bool.false_ne_true hta
  omega

theorem count_lstripP (a : Char) (l : List Char) (h : isPySpace a = false) :
    (lstripP l).count a = l.count a :=
  count_dropWhile _ _ _ h

theorem count_rstripP (a : Char) (l : List Char) (h : isPySpace a = false) :
    (rstripP l).count a = l.count a := by
  unfold rstripP
  rw [List.count_reverse, count_dropWhile _ _ _ h, List.count_reverse]

theorem count_stripP (a : Char) (l : List Char) (h : isPySpace a = false) :
    (stripP l).count a = l.count a := by
  unfold stripP
  rw [count_rstripP _ _ h, count_lstripP _ _ h]

theorem count_removeNbsp_comma (l : List Char) :
    (removeNbsp l).count ',' = l.count ',' := by
  unfold removeNbsp
  exact List.count_filter (by decide)

theorem count_rstripPercent_comma (l : List Char) :
    (rstripPercent l).count ',' = l.count ',' := by
  unfold rstripPercent
  rw [List.count_reverse, count_dropWhile _ _ _ (by decide), List.count_reverse]

theorem count_dot_commaToDot (l : List Char) :
    (commaToDot l).count '.' = l.count ',' + l.count '.' := by
  induction l with
  | nil => rfl
  | cons c cs ih =>
    simp only [commaToDot, List.map_cons, List.count_cons] at ih ⊢
    by_cases h : c = ','
    · subst h
      simp [ih]
      omega
    · by_cases h2 : c = '.'
      · subst h2
        simp [h, ih]
        omega
      · simp [h, h2, ih]

/-- Every comma of the raw string survives into the normalized form as a
dot (plus any original dots). -/
theorem pyNormalize_dotcount (s : String) : s.data.count ',' ≤ (pyNormalize s).count '.' := by
  simp only [pyNormalize]
  have hsp : isPySpace ',' = false := by decide
  by_cases hE : endsWithPercent (stripP (removeNbsp s.data)) = true
  · rw [if_pos hE, count_dot_commaToDot, count_stripP _ _ hsp, count_rstripPercent_comma,
      count_stripP _ _ hsp, count_removeNbsp_comma]
    omega
  · rw [if_neg hE, count_dot_commaToDot, count_stripP _ _ hsp, count_removeNbsp_comma]
    omega

/-! ### `pyFloat?` accepts at most one dot -/

theorem digits_count_dot {pre : List Char} (h : ∀ c ∈ pre, c.isDigit = true) :
    pre.count '.' = 0 := by
  rw [List.count_eq_zero]
  intro hm
  exact absurd (h '.' hm) (by decide)

theorem parseSign_suffix (l : List Char) :
    ∃ pre, l = pre ++ (parseSign l).2 ∧ pre.count '.' = 0 := by
  cases l with
  | nil => exact ⟨[], rfl, rfl⟩
  | cons c cs =>
    by_cases h1 : c = '+'
    · subst h1
      exact ⟨['+'], by simp [parseSign], by decide⟩
    · by_cases h2 : c = '-'
      · subst h2
        exact ⟨['-'], by simp [parseSign], by decide⟩
      · exact ⟨[], by simp [parseSign, h1, h2], rfl⟩

theorem takeDigits_suffix (acc n : ℕ) (l : List Char) :
    ∃ pre, l = pre ++ (takeDigits acc n l).2.2 ∧ ∀ c ∈ pre, c.isDigit = true := by
  induction l generalizing acc n with
  | nil => exact ⟨[], rfl, by simp⟩
  | cons c cs ih =>
    by_cases h : c.isDigit = true
    · obtain ⟨pre, hp, hall⟩ := ih (10 * acc + (c.toNat - 48)) (n + 1)
      refine ⟨c :: pre, ?_, ?_⟩
      · simp only [takeDigits, h, if_pos, List.cons_append]
        exact congrArg (c :: ·) hp
      · intro x hx
        rcases List.mem_cons.mp hx with rfl | hx2
        · exact h
        · exact hall x hx2
    · refine ⟨[], ?_, by simp⟩
      simp [takeDigits, h]

theorem parseExp_count {cs : List Char} {e : ℤ} (h : parseExp cs = some e) :
    cs.count '.' = 0 := by
  cases cs with
  | nil => rfl
  | cons c cs' =>
    simp only [parseExp] at h
    by_cases hc : (c = 'e' || c = 'E') = true
    · rw [if_pos hc] at h
      by_cases hcond : (0 < (takeDigits 0 0 (parseSign cs').2).2.1 &&
          (takeDigits 0 0 (parseSign cs').2).2.2.isEmpty) = true
      · obtain ⟨p1, hp1, hc1⟩ := parseSign_suffix cs'
        obtain ⟨p2, hp2, hall2⟩ := takeDigits_suffix 0 0 (parseSign cs').2
        have hrest : (takeDigits 0 0 (parseSign cs').2).2.2 = [] :=
          List.isEmpty_iff.mp ((Bool.and_eq_true _ _).mp hcond).2
        have hce : c = 'e' ∨ c = 'E' := by simpa using hc
        have hcdot : (c == '.') = false := by
          rcases hce with rfl | rfl <;> decide
        rw [List.count_cons, hp1, List.count_append, hc1, hp2, List.count_append,
          digits_count_dot hall2, hrest, hcdot]
        simp
      · rw [if_neg hcond] at h
        exact absurd h (by simp)
    · rw [if_neg hc] at h
      exact absurd h (by simp)

/-- A successfully parsed float literal contains at most one dot. -/
theorem pyFloat?_dots {l : List Char} {q : ℚ} (h : pyFloat? l = some q) :
    l.count '.' ≤ 1 := by
  obtain ⟨p0, hp0, hc0⟩ := parseSign_suffix l
  obtain ⟨p1, hp1, hall1⟩ := takeDigits_suffix 0 0 (parseSign l).2
  simp only [pyFloat?] at h
  split at h
  · rename_i l3 heq
    split at h
    · exact absurd h (by simp)
    · split at h
      · rename_i e heq2
        obtain ⟨p2, hp2, hall2⟩ := takeDigits_suffix 0 0 l3
        have hre := parseExp_count heq2
        rw [hp0, List.count_append, hc0, hp1, List.count_append,
          digits_count_dot hall1, heq, List.count_cons, hp2, List.count_append,
          digits_count_dot hall2, hre]
        simp
      · exact absurd h (by simp)
  · split at h
    · exact absurd h (by simp)
    · split at h
      · rename_i e heq2
        have hre := parseExp_count heq2
        rw [hp0, List.count_append, hc0, hp1, List.count_append,
          digits_count_dot hall1, hre]
        omega
      · exact absurd h (by simp)

theorem pyFloat?_two_dots {l : List Char} (h : 2 ≤ l.count '.') : pyFloat? l = none := by
  cases hq : pyFloat? l with
  | none => rfl
  | some q =>
    have := pyFloat?_dots hq
    omega

/-! ### C9: every comma becomes a dot, so multiple commas fail the parse -/

/-- C9. `parse_number` replaces every comma, not just a decimal
separator: a thousands-separated `"1,000"` is read as `1.000` (the value
`1`), and any string holding two or more commas (such as `"1,234,5"`)
fails the numeric parse and yields `0.0`. -/
theorem c9_comma_semantics :
    (∀ s : String, 2 ≤ s.data.count ',' → parse_number (PyValue.str s) = 0) ∧
    parse_number (PyValue.str "1,000") = 1 ∧
    parse_number (PyValue.str "1,234,5") = 0 := by
  refine ⟨fun s hs => ?_, ?_, ?_⟩
  · have hd : 2 ≤ (pyNormalize s).count '.' := le_trans hs (pyNormalize_dotcount s)
    simp [parse_number, pyFloat?_two_dots hd]
  · norm_num +decide [parse_number, pyNormalize, pyFloat?, parseSign, takeDigits, parseExp,
      stripP, lstripP, rstripP, removeNbsp, rstripPercent, commaToDot, endsWithPercent,
      isPySpace, charToNat_0, charToNat_1]
  · decide

/-- Witness for C9 at the concrete two-comma string `"1,234,5"`. -/
theorem c9_witness :
    2 ≤ ("1,234,5" : String).data.count ',' ∧ parse_number (PyValue.str "1,234,5") = 0 :=
  ⟨by decide, c9_comma_semantics.1 "1,234,5" (by decide)⟩

/-! ### C1: aggregation averages -/

/-- Arithmetic mean of a list of rationals, `0` on the empty list — the
spec-side definition the averages are compared against. -/
def meanQ (l : List ℚ) : ℚ := if l = [] then 0 else l.sum / (l.length : ℚ)

/-- C1. Each average of `compute_report` is the arithmetic mean of
`margin` over its subset (all rows / `"Онлайн"` rows / `"ФОП"` rows) and
is `0.0` whenever that subset is empty — for every record list, so in
particular when the whole list is non-empty but a channel subset is
empty; and on the empty list the report is all zeros (no division
fault: `compute_report` is a total function). -/
theorem c1_aggregate_means (rows : List SalesRecord) :
    (compute_report rows).avg_margin = meanQ (rows.map (fun r => r.margin)) ∧
    (compute_report rows).avg_online =
      meanQ ((rows.filter (fun r => r.type = PyValue.str "Онлайн")).map (fun r => r.margin)) ∧
    (compute_report rows).avg_fop =
      meanQ ((rows.filter (fun r => r.type = PyValue.str "ФОП")).map (fun r => r.margin)) ∧
    compute_report [] =
      { total_batons := 0, total_sales := 0, total_online := 0, total_fop := 0,
        expense := 0, avg_margin := 0, avg_online := 0, avg_fop := 0 } := by
  refine ⟨?_, ?_, ?_, ?_⟩ <;> simp [compute_report, meanQ, List.isEmpty_iff]

/-! ### C7: aggregation is order-independent -/

/-- C7. `compute_report` yields the same summary on any permutation of
its input: with the exact rational arithmetic of this model (the spec
tolerates only floating-point summation-order effects), equality is
exact. -/
theorem c7_aggregate_perm_invariant (l l' : List SalesRecord) (h : l.Perm l') :
    compute_report l = compute_report l' := by
  have havg : ∀ la lb : List SalesRecord, la.Perm lb →
      (if (la.map fun r => r.margin).isEmpty then (0 : ℚ)
       else (la.map fun r => r.margin).sum / ((la.map fun r => r.margin).length : ℚ)) =
      (if (lb.map fun r => r.margin).isEmpty then (0 : ℚ)
       else (lb.map fun r => r.margin).sum / ((lb.map fun r => r.margin).length : ℚ)) := by
    intro la lb hab
    have h1 := hab.map (fun r => r.margin)
    have hemp : (la.map fun r => r.margin).isEmpty = (lb.map fun r => r.margin).isEmpty := by
      rw [Bool.eq_iff_iff]
      simp only [List.isEmpty_iff]
      constructor
      · intro hA
        rw [hA] at h1
        exact h1.symm.eq_nil
      · intro hB
        rw [hB] at h1
        exact h1.eq_nil
    rw [hemp, h1.sum_eq, h1.length_eq]
  have hon := h.filter (fun r => r.type = PyValue.str "Онлайн")
  have hfp := h.filter (fun r => r.type = PyValue.str "ФОП")
  simp only [compute_report, ReportSummary.mk.injEq]
  refine ⟨?_, ?_, ?_, ?_, ?_, ?_, ?_, ?_⟩
  · exact (h.map fun r => r.batons).sum_eq
  · exact (h.map fun r => r.sales).sum_eq
  · exact (hon.map fun r => r.sales).sum_eq
  · exact (hfp.map fun r => r.sales).sum_eq
  · exact (h.map fun r => r.expense).sum_eq
  · exact havg _ _ h
  · exact havg _ _ hon
  · exact havg _ _ hfp

/-- Witness for C7: swapping two concrete records leaves the report
unchanged. -/
theorem c7_witness :
    compute_report [⟨⟨2024, 3, 5⟩, 10, 500, PyValue.str "Онлайн", 50, 10⟩,
                    ⟨⟨2024, 3, 6⟩, 5, 200, PyValue.str "ФОП", 20, 20⟩] =
    compute_report [⟨⟨2024, 3, 6⟩, 5, 200, PyValue.str "ФОП", 20, 20⟩,
                    ⟨⟨2024, 3, 5⟩, 10, 500, PyValue.str "Онлайн", 50, 10⟩] :=
  c7_aggregate_perm_invariant _ _
    (List.Perm.swap (⟨⟨2024, 3, 6⟩, 5, 200, PyValue.str "ФОП", 20, 20⟩ : SalesRecord)
      (⟨⟨2024, 3, 5⟩, 10, 500, PyValue.str "Онлайн", 50, 10⟩ : SalesRecord) [])

/-! ### C10: channel totals split the overall total -/

/-- C10. When every record carries one of the two literal labels
`"Онлайн"`/`"ФОП"`, the two channel totals add up to `total_sales`; a
record with any other label contributes its sales to `total_sales` but
to neither channel total. -/
theorem c10_channel_totals :
    (∀ rows : List SalesRecord,
      (∀ r ∈ rows, r.type = PyValue.str "Онлайн" ∨ r.type = PyValue.str "ФОП") →
      (compute_report rows).total_online + (compute_report rows).total_fop =
        (compute_report rows).total_sales) ∧
    (∀ (rows : List SalesRecord) (r : SalesRecord),
      r.type ≠ PyValue.str "Онлайн" → r.type ≠ PyValue.str "ФОП" →
      (compute_report (r :: rows)).total_sales = r.sales + (compute_report rows).total_sales ∧
      (compute_report (r :: rows)).total_online = (compute_report rows).total_online ∧
      (compute_report (r :: rows)).total_fop = (compute_report rows).total_fop) := by
  constructor
  · intro rows
    induction rows with
    | nil =>
      intro _
      simp [compute_report]
    | cons a t ih =>
      intro h
      have ha := h a (List.mem_cons_self a t)
      have ht := ih (fun r hr => h r (List.mem_cons_of_mem a hr))
      simp only [compute_report] at ht ⊢
      rcases ha with ha | ha
      · have hne : ¬(a.type = PyValue.str "ФОП") := by
          rw [ha]
          decide
        simp only [List.filter_cons, ha, List.map_cons, List.sum_cons]
        simp [hne]
        linarith [ht]
      · have hne : ¬(a.type = PyValue.str "Онлайн") := by
          rw [ha]
          decide
        simp only [List.filter_cons, ha, List.map_cons, List.sum_cons]
        simp [hne]
        linarith [ht]
  · intro rows r h1 h2
    refine ⟨?_, ?_, ?_⟩ <;> simp [compute_report, List.filter_cons, h1, h2]

/-- Witness for C10: a two-label list whose channel totals sum to the
overall total, and an other-label record that moves only `total_sales`. -/
theorem c10_witness :
    ((compute_report [⟨⟨2024, 3, 5⟩, 10, 500, PyValue.str "Онлайн", 50, 10⟩,
                      ⟨⟨2024, 3, 6⟩, 5, 200, PyValue.str "ФОП", 20, 20⟩]).total_online +
      (compute_report [⟨⟨2024, 3, 5⟩, 10, 500, PyValue.str "Онлайн", 50, 10⟩,
                      ⟨⟨2024, 3, 6⟩, 5, 200, PyValue.str "ФОП", 20, 20⟩]).total_fop =
      (compute_report [⟨⟨2024, 3, 5⟩, 10, 500, PyValue.str "Онлайн", 50, 10⟩,
                      ⟨⟨2024, 3, 6⟩, 5, 200, PyValue.str "ФОП", 20, 20⟩]).total_sales) ∧
    (compute_report ((⟨⟨2024, 3, 7⟩, 1, 100, PyValue.str "Роздріб", 10, 5⟩ : SalesRecord) :: [])).total_sales =
      (⟨⟨2024, 3, 7⟩, 1, 100, PyValue.str "Роздріб", 10, 5⟩ : SalesRecord).sales +
        (compute_report []).total_sales :=
  ⟨c10_channel_totals.1 _ (by decide),
   (c10_channel_totals.2 [] ⟨⟨2024, 3, 7⟩, 1, 100, PyValue.str "Роздріб", 10, 5⟩
     (by decide) (by decide)).1⟩

/-! ### C5: date-range filtering -/

/-- The spec-side pass predicate of the date filter: (start absent OR
`record.date >= start`) AND (end absent OR `record.date <= end`), both
bounds inclusive, an absent bound unbounded on that side. -/
def inRange (start_date end_date : Option Date) (d : Date) : Prop :=
  (start_date = none ∨ ∃ s, start_date = some s ∧ s ≤ d) ∧
  (end_date = none ∨ ∃ e, end_date = some e ∧ d ≤ e)

instance (sd ed : Option Date) (d : Date) : Decidable (inRange sd ed d) :=
  decidable_of_iff
    (((match sd with | none => true | some s => decide (s ≤ d)) &&
      (match ed with | none => true | some e => decide (d ≤ e))) = true)
    (by cases sd <;> cases ed <;> simp [inRange])

/-- C5. `filter_data` keeps exactly the records whose date lies in the
optional inclusive window (the spec predicate `inRange`), and the output
is a sublist of the input: order is preserved. -/
theorem c5_filter_window (data : List SalesRecord) (sd ed : Option Date) :
    (filter_data data sd ed).Sublist data ∧
    filter_data data sd ed = data.filter (fun r => decide (inRange sd ed r.date)) := by
  constructor
  · exact List.filter_sublist data
  · unfold filter_data
    apply List.filter_congr
    intro r _
    rw [Bool.eq_iff_iff]
    simp only [Bool.and_eq_true, decide_eq_true_eq]
    cases sd <;> cases ed <;> simp [inRange]

/-! ### C2: row parsing -/

/-- C2. `parse_row` yields a record exactly when the row has at least six
cells (the explicit cons shape) and cell 0 is a string parsing under the
strict `day.month.year` format; the record then carries cells 1, 2, 4, 5
through `parse_number` (total, defaulting to `0.0` rather than dropping
the record) and cell 3 verbatim.  In every other case the row is skipped
(`none`) with no partial record, and `parse_row` is a total Lean
function, so no exception escapes. -/
theorem c2_parse_row_iff (row : List PyValue) (r : SalesRecord) :
    parse_row row = some r ↔
      ∃ (ds : String) (c1 c2 c3 c4 c5 : PyValue) (rest : List PyValue) (d : Date),
        row = PyValue.str ds :: c1 :: c2 :: c3 :: c4 :: c5 :: rest ∧
        strptime_dmY ds = some d ∧
        r = { date := d, batons := parse_number c1, sales := parse_number c2,
              type := c3, expense := parse_number c4, margin := parse_number c5 } := by
  constructor
  · intro h
    rcases row with _ | ⟨c0, _ | ⟨c1, _ | ⟨c2, _ | ⟨c3, _ | ⟨c4, _ | ⟨c5, rest⟩⟩⟩⟩⟩⟩
    · simp [parse_row] at h
    · simp [parse_row] at h
    · simp [parse_row] at h
    · simp [parse_row] at h
    · simp [parse_row] at h
    · simp [parse_row] at h
    · cases c0 with
      | int n => simp [parse_row] at h
      | float x => simp [parse_row] at h
      | str ds =>
        cases hd : strptime_dmY ds with
        | none => simp [parse_row, hd] at h
        | some d =>
          simp [parse_row, hd] at h
          exact ⟨ds, c1, c2, c3, c4, c5, rest, d, rfl, hd, h.symm⟩
      | other => simp [parse_row] at h
  · rintro ⟨ds, c1, c2, c3, c4, c5, rest, d, rfl, hd, rfl⟩
    simp [parse_row, hd]

/-! ### C8: report rendering -/

theorem digitChar_isDigit (n : ℕ) : (digitChar n).isDigit = true := by
  have h : n % 10 < 10 := Nat.mod_lt _ (by norm_num)
  unfold digitChar
  generalize n % 10 = k at h ⊢
  interval_cases k <;> decide

/-- C8. `format_report` renders the three margin fields through the
two-decimal converter followed by a percent sign and every other numeric
field through the default float-to-text conversion (first conjunct, the
definitional shape of the output); the two-decimal converter always
produces exactly two decimal digits before the percent sign, whatever
the input (`12.0` renders as `"12.00%"`); and the header names the
period in `day.month.year` calendar format. -/
theorem c8_format_policy (s e : Date) (st : ReportSummary) :
    (format_report s e st =
      ("📊 Звіт Чіназес за " ++ strftime_dmY s ++ "–" ++ strftime_dmY e ++ "\n\n") ++
      ("🔹 Батонів продано: " ++ pyStr st.total_batons ++ "\n" ++
       "🔹 Сума продажів: " ++ pyStr st.total_sales ++ "\n\n" ++
       "💳 ФОП-онлайн: " ++ pyStr st.total_online ++ "\n" ++
       "🤝 ФОП-ФОП: " ++ pyStr st.total_fop ++ "\n\n" ++
       "💸 Витрати: " ++ pyStr st.expense ++ "\n\n" ++
       "📈 Середня маржа: " ++ pyFixed2 st.avg_margin ++ "%\n" ++
       "- Онлайн: " ++ pyFixed2 st.avg_online ++ "%\n" ++
       "- ФОП: " ++ pyFixed2 st.avg_fop ++ "%\n")) ∧
    (∀ q : ℚ, ∃ (p : List Char) (d1 d2 : Char),
      (pyFixed2 q ++ "%").data = p ++ ['.', d1, d2, '%'] ∧
      d1.isDigit = true ∧ d2.isDigit = true) ∧
    pyFixed2 (12 : ℚ) ++ "%" = "12.00%" ∧
    strftime_dmY ⟨2024, 3, 5⟩ = "05.03.2024" := by
  refine ⟨rfl, fun q => ?_, ?_, by decide⟩
  · refine ⟨((if pyRoundHalfEven (q * 100) < 0 then "-" else "") ++
      toString ((pyRoundHalfEven (q * 100)).natAbs / 100)).data,
      digitChar ((pyRoundHalfEven (q * 100)).natAbs / 10),
      digitChar (pyRoundHalfEven (q * 100)).natAbs, ?_, digitChar_isDigit _, digitChar_isDigit _⟩
    simp [pyFixed2, String.data_append]
  · have h : pyRoundHalfEven ((12 : ℚ) * 100) = 1200 := by norm_num [pyRoundHalfEven]
    simp only [pyFixed2, h]
    decide

end AnalyticsBot
